import Mathlib

/-!
Verification of the ranking/evaluation core of the graph4nlp example scripts:
`examples/pytorch/kg_completion/main.py` (function `ranking_and_hits_this`,
class `KGC`) and `examples/pytorch/text_classification/run_text_classifier.py`
(class `TextClassifier`).

Scores are modelled as rationals, score rows as `List ℚ`, entity ids as `Nat`.
A filter is the raw index list taken from the `e2_multi` tensor row, exactly as
the code applies it (`pred1[i][filter1] = 0.0`), so it may contain duplicates
and zero-padding entries.
-/

namespace KGCEval

/-- The per-example filter step of `ranking_and_hits_this` (main.py lines
122-131): save the score of the target entity, set the score of every index
occurring in the filter list to `0.0`, then write the saved target score back
at the target index. -/
def filterStep (s : List ℚ) (target : Nat) (fil : List Nat) : List ℚ :=
  let tv := s.getD target 0
  let zeroed := fil.foldl (fun acc j => acc.set j 0) s
  zeroed.set target tv

/-- Descending, stable argsort of a score row (main.py line 134:
`torch.sort(pred1, 1, descending=True)`): the list of candidate indices
`0, ..., n-1` sorted so that higher scores come first, ties keeping the
original index order (stable). -/
def argsortDesc (s : List ℚ) : List Nat :=
  (List.range s.length).insertionSort (fun i j => s.getD j 0 ≤ s.getD i 0)

/-- 0-based rank of the target: position of the first occurrence of `t` in the
descending argsort (main.py line 141: `np.where(argsort1[i] == e2)[0][0]`). -/
def rank0Of (s : List ℚ) (t : Nat) : Nat :=
  (argsortDesc s).findIdx (fun j => j == t)

/-- 1-based rank (main.py line 144: `ranks.append(rank1 + 1)`). -/
def rankOf (s : List ℚ) (t : Nat) : Nat :=
  rank0Of s t + 1

/-- The hits indicator appended for one example at one cutoff level
(main.py lines 150-163): `1.0` if the 0-based rank is at most `hits_level`,
else `0.0`. -/
def hitInd (rank0 lvl : Nat) : ℚ :=
  if rank0 ≤ lvl then 1 else 0

/-- One evaluation example: the subject-side ("left") query's score row,
target id (`e2[i,0]`) and filter list (`e2_multi1[i]`), and the object-side
("right") query's score row, target id (`e1[i,0]`) and filter list
(`e2_multi2[i]`). -/
structure EvalExample where
  scoresL : List ℚ
  targetL : Nat
  filterL : List Nat
  scoresR : List ℚ
  targetR : Nat
  filterR : List Nat

/-- The accumulator lists of `ranking_and_hits_this` (main.py lines 86-95):
ten hit-indicator lists per direction and combined, plus the three rank
lists. -/
structure EvalState where
  hits : Nat → List ℚ
  hitsLeft : Nat → List ℚ
  hitsRight : Nat → List ℚ
  ranks : List Nat
  ranksLeft : List Nat
  ranksRight : List Nat

def initState : EvalState :=
  { hits := fun _ => [], hitsLeft := fun _ => [], hitsRight := fun _ => [],
    ranks := [], ranksLeft := [], ranksRight := [] }

/-- 0-based left rank of one example, after the filter step. -/
def rank0Left (ex : EvalExample) : Nat :=
  rank0Of (filterStep ex.scoresL ex.targetL ex.filterL) ex.targetL

/-- 0-based right rank of one example, after the filter step. -/
def rank0Right (ex : EvalExample) : Nat :=
  rank0Of (filterStep ex.scoresR ex.targetR ex.filterR) ex.targetR

/-- Process one example (main.py lines 117-163): filter both directions,
rank both targets, append `rank+1` to the combined and the direction-specific
rank lists, and append the indicator `rank0 <= hits_level` for each of the ten
levels to the combined and the direction-specific hit lists. -/
def processExample (st : EvalState) (ex : EvalExample) : EvalState :=
  let r1 := rank0Left ex
  let r2 := rank0Right ex
  { hits := fun lvl =>
      if lvl < 10 then st.hits lvl ++ [hitInd r1 lvl, hitInd r2 lvl] else st.hits lvl,
    hitsLeft := fun lvl =>
      if lvl < 10 then st.hitsLeft lvl ++ [hitInd r1 lvl] else st.hitsLeft lvl,
    hitsRight := fun lvl =>
      if lvl < 10 then st.hitsRight lvl ++ [hitInd r2 lvl] else st.hitsRight lvl,
    ranks := st.ranks ++ [r1 + 1, r2 + 1],
    ranksLeft := st.ranksLeft ++ [r1 + 1],
    ranksRight := st.ranksRight ++ [r2 + 1] }

/-- One full evaluation pass over a list of examples. -/
def runEval (exs : List EvalExample) : EvalState :=
  exs.foldl processExample initState

/-- `np.mean` over a list of rationals. -/
def meanQ (l : List ℚ) : ℚ :=
  l.sum / l.length

/-- `np.mean(1.0 / np.array(ranks))`: mean reciprocal rank of a rank list. -/
def mrrOf (ranks : List Nat) : ℚ :=
  meanQ (ranks.map fun (r : Nat) => 1 / (r : ℚ))

/-- `np.mean(ranks)`: mean rank of a rank list. -/
def meanRankOf (ranks : List Nat) : ℚ :=
  meanQ (ranks.map fun (r : Nat) => (r : ℚ))

/-- The value `ranking_and_hits_this` returns (main.py line 190):
`np.mean(1.0 / np.array(ranks))` over the combined rank list. -/
def rankingAndHitsReturn (exs : List EvalExample) : ℚ :=
  mrrOf (runEval exs).ranks

def hitsAt (exs : List EvalExample) (lvl : Nat) : ℚ :=
  meanQ ((runEval exs).hits lvl)

def hitsLeftAt (exs : List EvalExample) (lvl : Nat) : ℚ :=
  meanQ ((runEval exs).hitsLeft lvl)

def hitsRightAt (exs : List EvalExample) (lvl : Nat) : ℚ :=
  meanQ ((runEval exs).hitsRight lvl)

def meanRank (exs : List EvalExample) : ℚ :=
  meanRankOf (runEval exs).ranks

def meanRankLeft (exs : List EvalExample) : ℚ :=
  meanRankOf (runEval exs).ranksLeft

def meanRankRight (exs : List EvalExample) : ℚ :=
  meanRankOf (runEval exs).ranksRight

def mrr (exs : List EvalExample) : ℚ :=
  mrrOf (runEval exs).ranks

def mrrLeft (exs : List EvalExample) : ℚ :=
  mrrOf (runEval exs).ranksLeft

def mrrRight (exs : List EvalExample) : ℚ :=
  mrrOf (runEval exs).ranksRight

/-- The concrete 5-entity score row of spec §8 scenarios 5 and 6:
`[0.1, 0.9, 0.3, 0.05, 0.2]`. -/
def c9Scores : List ℚ :=
  [0.1, 0.9, 0.3, 0.05, 0.2]

/-- A 3-entity score row used to exhibit the zero-padding effect of the raw
filter list on entity 0's rank. -/
def c2Scores : List ℚ :=
  [5, 1, 3]

/-- A small concrete evaluation example used to instantiate the aggregate
theorems. -/
def demoExample : EvalExample :=
  { scoresL := c2Scores, targetL := 1, filterL := [],
    scoresR := c2Scores, targetR := 2, filterR := [0] }

end KGCEval

namespace ModelDispatch

/-- The model variants the KGC constructor recognizes (main.py lines 28-43). -/
inductive KGCModel
  | conve
  | distmult
  | complexM
  | ggnnDistmult
  | gcnDistmult
  | gcnComplex
  deriving DecidableEq

/-- The `if/elif` dispatch of `KGC.__init__` (main.py lines 28-43): `None`
defaults to ConvE, six recognized strings select a variant, anything else
raises `Exception("Unknown model type!")`. -/
def kgcSelectModel : Option String → Except String KGCModel
  | none => .ok .conve
  | some s =>
    if s = "conve" then .ok .conve
    else if s = "distmult" then .ok .distmult
    else if s = "complex" then .ok .complexM
    else if s = "ggnn_distmult" then .ok .ggnnDistmult
    else if s = "gcn_distmult" then .ok .gcnDistmult
    else if s = "gcn_complex" then .ok .gcnComplex
    else .error "Unknown model type!"

/-- The graph-construction variants `TextClassifier.__init__` recognizes
(run_text_classifier.py lines 37-85). -/
inductive TCGraphType
  | dependency
  | constituency
  | nodeEmb
  | nodeEmbRefined
  deriving DecidableEq

/-- The `if/elif` dispatch of `TextClassifier.__init__`
(run_text_classifier.py lines 37-85): four recognized strings, anything else
raises `RuntimeError('Unknown graph_type: \x7b\x7d'.format(config.graph_type))`,
a message that names the supplied option. In the script this constructor runs
only from `ModelHandler._build_model`, after `_build_dataloader` has already
succeeded on the same `graph_type` string. -/
def tcSelectGraphType (gt : String) : Except String TCGraphType :=
  if gt = "dependency" then .ok .dependency
  else if gt = "constituency" then .ok .constituency
  else if gt = "node_emb" then .ok .nodeEmb
  else if gt = "node_emb_refined" then .ok .nodeEmbRefined
  else .error ("Unknown graph_type: " ++ gt)

/-- The topology classes `ModelHandler._build_dataloader` selects
(run_text_classifier.py lines 145-156). -/
inductive TCTopologyBuilder
  | dependencyBased
  | constituencyBased
  | nodeEmbBased
  | nodeEmbRefinedBased
  deriving DecidableEq

/-- The `if/elif` dispatch of `ModelHandler._build_dataloader`
(run_text_classifier.py lines 145-158): the same four recognized strings
select a topology builder together with the local static/dynamic tag. The
else branch at line 158 is
`raise RuntimeError('Unknown graph_type: \x7b\x7d'.format(config.graph_type))`,
but the bare name `config` is undefined in that scope (the method only has
`self.config` and the module has no global `config`), so evaluating the
format argument raises `NameError: name 'config' is not defined` before the
RuntimeError is ever constructed. -/
def tcBuildDataloader (gt : String) : Except String (TCTopologyBuilder × String) :=
  if gt = "dependency" then .ok (.dependencyBased, "static")
  else if gt = "constituency" then .ok (.constituencyBased, "static")
  else if gt = "node_emb" then .ok (.nodeEmbBased, "dynamic")
  else if gt = "node_emb_refined" then .ok (.nodeEmbRefinedBased, "dynamic")
  else .error "NameError: name 'config' is not defined"

/-- In `main` (main.py lines 274-354) the `KGC` model is constructed before
the epoch loop runs: if construction raises, zero epochs are trained or
evaluated. The trace records how many epochs the loop ran. -/
def kgcRun (cfgModel : Option String) (epochs : Nat) : Except String Nat :=
  match kgcSelectModel cfgModel with
  | .error e => .error e
  | .ok _ => .ok epochs

/-- `ModelHandler.__init__` (run_text_classifier.py lines 136-142) runs
`_build_dataloader` (line 139) and then `_build_model` (line 140), which
constructs `TextClassifier`, before `train` runs any epoch: whichever of the
two raises first aborts the run with zero epochs trained or evaluated. -/
def tcRun (graphType : String) (epochs : Nat) : Except String Nat :=
  match tcBuildDataloader graphType with
  | .error e => .error e
  | .ok _ =>
    match tcSelectGraphType graphType with
    | .error e => .error e
    | .ok _ => .ok epochs

/-- `p` is a prefix of `l`, as an executable check on character lists. -/
def listPrefixOf : List Char → List Char → Bool
  | [], _ => true
  | _ :: _, [] => false
  | a :: as, b :: bs => a == b && listPrefixOf as bs

/-- `p` occurs contiguously somewhere in `l`. -/
def listOccursIn (p : List Char) : List Char → Bool
  | [] => listPrefixOf p []
  | b :: bs => listPrefixOf p (b :: bs) || listOccursIn p bs

/-- The error message `msg` mentions the supplied option string `opt`. -/
def mentionsOption (opt msg : String) : Bool :=
  listOccursIn opt.toList msg.toList

end ModelDispatch

namespace KGCEval

theorem filterStep_getElem? (s : List ℚ) (t : Nat) (f : List Nat) (k : Nat) :
    (filterStep s t f)[k]? =
      if k = t then s[k]?
      else if k ∈ f then (s[k]?).map (fun _ => (0 : ℚ)) else s[k]? := by
  have hzero : ∀ (f : List Nat) (s : List ℚ) (k : Nat),
      (f.foldl (fun acc j => acc.set j 0) s)[k]? =
        if k ∈ f then (s[k]?).map (fun _ => (0 : ℚ)) else s[k]? := by
    intro f
    induction f with
    | nil => intro s k; simp
    | cons j f ih =>
      intro s k
      rw [List.foldl_cons, ih]
      by_cases hkj : k = j
      · subst hkj
        by_cases hk : k < s.length
        · simp [List.getElem?_set, List.getElem?_eq_getElem hk, hk]
        · simp [List.getElem?_set, List.getElem?_eq_none (Nat.le_of_not_lt hk), hk]
      · simp [List.getElem?_set, Ne.symm hkj, hkj, List.mem_cons]
  show ((f.foldl (fun acc j => acc.set j 0) s).set t (s.getD t 0))[k]? = _
  have hlen : (f.foldl (fun acc j => acc.set j 0) s).length = s.length := by
    clear hzero
    induction f generalizing s with
    | nil => rfl
    | cons j f ih => simpa using ih (s.set j 0)
  by_cases hkt : k = t
  · subst hkt
    by_cases hk : k < s.length
    · rw [List.getElem?_set_self (by rw [hlen]; exact hk)]
      rw [List.getD_eq_getElem s 0 hk]
      simp [List.getElem?_eq_getElem hk]
    · have h1 : s[k]? = none := List.getElem?_eq_none (Nat.le_of_not_lt hk)
      have h2 : ((f.foldl (fun acc j => acc.set j 0) s).set k (s.getD k 0))[k]? = none := by
        apply List.getElem?_eq_none
        rw [List.length_set, hlen]
        exact Nat.le_of_not_lt hk
      rw [h2, h1]
      simp
  · rw [List.getElem?_set_ne (Ne.symm hkt)]
    rw [hzero]
    simp [hkt]

theorem filterStep_length (s : List ℚ) (t : Nat) (f : List Nat) :
    (filterStep s t f).length = s.length := by
  have hlen : ∀ (f : List Nat) (s : List ℚ),
      (f.foldl (fun acc j => acc.set j 0) s).length = s.length := by
    intro f
    induction f with
    | nil => intro s; rfl
    | cons j f ih => intro s; simpa using ih (s.set j 0)
  show ((f.foldl (fun acc j => acc.set j 0) s).set t (s.getD t 0)).length = s.length
  rw [List.length_set, hlen]

/-- The filter step never changes the target's own score. -/
theorem filterStep_preserves_target (s : List ℚ) (t : Nat) (f : List Nat) :
    (filterStep s t f)[t]? = s[t]? := by
  rw [filterStep_getElem?]; simp

theorem processExample_hits (st : EvalState) (ex : EvalExample) (lvl : Nat)
    (h : lvl < 10) :
    (processExample st ex).hits lvl =
      st.hits lvl ++ [hitInd (rank0Left ex) lvl, hitInd (rank0Right ex) lvl] := by
  simp [processExample, h]

theorem runEval_ranks (exs : List EvalExample) :
    (runEval exs).ranks =
      exs.flatMap fun ex => [rank0Left ex + 1, rank0Right ex + 1] := by
  have key : ∀ (exs : List EvalExample) (st : EvalState),
      (exs.foldl processExample st).ranks =
        st.ranks ++ (exs.flatMap fun ex => [rank0Left ex + 1, rank0Right ex + 1]) := by
    intro exs
    induction exs with
    | nil => intro st; simp
    | cons ex exs ih =>
      intro st
      rw [List.foldl_cons, ih]
      simp [processExample, List.append_assoc]
  simpa [initState] using key exs initState

theorem runEval_ranksLeft (exs : List EvalExample) :
    (runEval exs).ranksLeft = exs.map fun ex => rank0Left ex + 1 := by
  have key : ∀ (exs : List EvalExample) (st : EvalState),
      (exs.foldl processExample st).ranksLeft =
        st.ranksLeft ++ (exs.map fun ex => rank0Left ex + 1) := by
    intro exs
    induction exs with
    | nil => intro st; simp
    | cons ex exs ih =>
      intro st
      rw [List.foldl_cons, ih]
      simp [processExample, List.append_assoc]
  simpa [initState] using key exs initState

theorem runEval_ranksRight (exs : List EvalExample) :
    (runEval exs).ranksRight = exs.map fun ex => rank0Right ex + 1 := by
  have key : ∀ (exs : List EvalExample) (st : EvalState),
      (exs.foldl processExample st).ranksRight =
        st.ranksRight ++ (exs.map fun ex => rank0Right ex + 1) := by
    intro exs
    induction exs with
    | nil => intro st; simp
    | cons ex exs ih =>
      intro st
      rw [List.foldl_cons, ih]
      simp [processExample, List.append_assoc]
  simpa [initState] using key exs initState

theorem runEval_hits (exs : List EvalExample) (lvl : Nat) (h : lvl < 10) :
    (runEval exs).hits lvl =
      exs.flatMap fun ex => [hitInd (rank0Left ex) lvl, hitInd (rank0Right ex) lvl] := by
  have key : ∀ (exs : List EvalExample) (st : EvalState),
      (exs.foldl processExample st).hits lvl =
        st.hits lvl ++
          (exs.flatMap fun ex => [hitInd (rank0Left ex) lvl, hitInd (rank0Right ex) lvl]) := by
    intro exs
    induction exs with
    | nil => intro st; simp
    | cons ex exs ih =>
      intro st
      rw [List.foldl_cons, ih]
      simp [processExample, h, List.append_assoc]
  simpa [initState] using key exs initState

theorem runEval_hitsLeft (exs : List EvalExample) (lvl : Nat) (h : lvl < 10) :
    (runEval exs).hitsLeft lvl = exs.map fun ex => hitInd (rank0Left ex) lvl := by
  have key : ∀ (exs : List EvalExample) (st : EvalState),
      (exs.foldl processExample st).hitsLeft lvl =
        st.hitsLeft lvl ++ (exs.map fun ex => hitInd (rank0Left ex) lvl) := by
    intro exs
    induction exs with
    | nil => intro st; simp
    | cons ex exs ih =>
      intro st
      rw [List.foldl_cons, ih]
      simp [processExample, h, List.append_assoc]
  simpa [initState] using key exs initState

theorem runEval_hitsRight (exs : List EvalExample) (lvl : Nat) (h : lvl < 10) :
    (runEval exs).hitsRight lvl = exs.map fun ex => hitInd (rank0Right ex) lvl := by
  have key : ∀ (exs : List EvalExample) (st : EvalState),
      (exs.foldl processExample st).hitsRight lvl =
        st.hitsRight lvl ++ (exs.map fun ex => hitInd (rank0Right ex) lvl) := by
    intro exs
    induction exs with
    | nil => intro st; simp
    | cons ex exs ih =>
      intro st
      rw [List.foldl_cons, ih]
      simp [processExample, h, List.append_assoc]
  simpa [initState] using key exs initState

theorem sum_bind_pair (f g : EvalExample → ℚ) (exs : List EvalExample) :
    ((exs.flatMap fun ex => [f ex, g ex]).sum) = (exs.map f).sum + (exs.map g).sum := by
  induction exs with
  | nil => simp
  | cons ex exs ih => simp [ih]; ring

theorem length_bind_pair {α : Type} (f g : EvalExample → α) (exs : List EvalExample) :
    (exs.flatMap fun ex => [f ex, g ex]).length = 2 * exs.length := by
  induction exs with
  | nil => simp
  | cons ex exs ih => simp [ih]; ring

theorem map_bind_pair {α β : Type} (h : α → β) (f g : EvalExample → α)
    (exs : List EvalExample) :
    (exs.flatMap fun ex => [f ex, g ex]).map h =
      exs.flatMap fun ex => [h (f ex), h (g ex)] := by
  induction exs with
  | nil => simp
  | cons ex exs ih => simp [ih]

/-- The mean of the interleaved per-example pair list is the average of the two
per-example means. -/
theorem meanQ_bind_pair (f g : EvalExample → ℚ) (exs : List EvalExample) :
    meanQ (exs.flatMap fun ex => [f ex, g ex]) =
      (meanQ (exs.map f) + meanQ (exs.map g)) / 2 := by
  rw [meanQ, meanQ, meanQ, sum_bind_pair, length_bind_pair, List.length_map,
    List.length_map, div_add_div_same, div_div, Nat.cast_mul, Nat.cast_ofNat,
    mul_comm]

theorem length_argsortDesc (s : List ℚ) : (argsortDesc s).length = s.length := by
  rw [argsortDesc, List.length_insertionSort, List.length_range]

theorem mem_argsortDesc (s : List ℚ) (t : Nat) (h : t < s.length) :
    t ∈ argsortDesc s := by
  rw [argsortDesc]
  exact (List.perm_insertionSort _ _).mem_iff.mpr (List.mem_range.mpr h)

theorem rank0Of_lt (s : List ℚ) (t : Nat) (h : t < s.length) :
    rank0Of s t < s.length := by
  rw [rank0Of, ← length_argsortDesc s]
  exact List.findIdx_lt_length_of_exists ⟨t, mem_argsortDesc s t h, by simp⟩

theorem list_sum_le_length : ∀ (l : List ℚ), (∀ x ∈ l, x ≤ 1) → l.sum ≤ l.length := by
  intro l
  induction l with
  | nil => intro _; simp
  | cons a as ih =>
    intro hb
    have h1 : a ≤ 1 := hb a (List.mem_cons_self a as)
    have h2 : as.sum ≤ as.length := ih fun x hx => hb x (List.mem_cons_of_mem a hx)
    simp only [List.sum_cons, List.length_cons]
    push_cast
    linarith

theorem list_all_one_of_sum_eq_length :
    ∀ (l : List ℚ), (∀ x ∈ l, x ≤ 1) → l.sum = l.length → ∀ x ∈ l, x = 1 := by
  intro l
  induction l with
  | nil => intro _ _ x hx; cases hx
  | cons a as ih =>
    intro hb hsum x hx
    have h1 : a ≤ 1 := hb a (List.mem_cons_self a as)
    have hb2 : ∀ x ∈ as, x ≤ 1 := fun x hx => hb x (List.mem_cons_of_mem a hx)
    have h2 : as.sum ≤ as.length := list_sum_le_length as hb2
    simp only [List.sum_cons, List.length_cons] at hsum
    push_cast at hsum
    have ha : a = 1 := by linarith
    have hs : as.sum = as.length := by linarith
    rcases List.mem_cons.mp hx with hxa | hxas
    · rw [hxa, ha]
    · exact ih hb2 hs x hxas

theorem hitInd_mono (r k : Nat) : hitInd r k ≤ hitInd r (k + 1) := by
  rw [hitInd, hitInd]
  by_cases h : r ≤ k
  · simp [h, Nat.le_succ_of_le h]
  · by_cases h2 : r ≤ k + 1 <;> simp [h, h2]

theorem meanQ_map_le_meanQ_map (f g : EvalExample → ℚ) (exs : List EvalExample)
    (hfg : ∀ ex ∈ exs, f ex ≤ g ex) :
    meanQ (exs.map f) ≤ meanQ (exs.map g) := by
  rw [meanQ, meanQ, List.length_map, List.length_map]
  rcases List.eq_nil_or_concat exs with hnil | _
  · simp [hnil]
  · have hsum : (exs.map f).sum ≤ (exs.map g).sum := List.sum_le_sum hfg
    rw [div_eq_mul_inv, div_eq_mul_inv]
    exact mul_le_mul_of_nonneg_right hsum (by positivity)

/-- Filtering with a list containing the target produces the same score row as
filtering with the target removed from the list. -/
theorem filterStep_erase_target (s : List ℚ) (t : Nat) (f : List Nat) :
    filterStep s t f = filterStep s t (f.filter (fun j => j != t)) := by
  apply List.ext_getElem?
  intro k
  rw [filterStep_getElem?, filterStep_getElem?]
  by_cases hkt : k = t
  · simp [hkt]
  · simp only [if_neg hkt]
    by_cases hkf : k ∈ f
    · rw [if_pos hkf, if_pos]
      rw [List.mem_filter]
      exact ⟨hkf, by simpa using hkt⟩
    · rw [if_neg hkf, if_neg]
      intro hmem
      exact hkf (List.mem_filter.mp hmem).1

end KGCEval

namespace KGCEval

theorem c9Scores_eq_mk :
    c9Scores = [Rat.mk' 1 10 (by decide) (by decide), Rat.mk' 9 10 (by decide) (by decide),
      Rat.mk' 3 10 (by decide) (by decide), Rat.mk' 1 20 (by decide) (by decide),
      Rat.mk' 1 5 (by decide) (by decide)] := by
  simp only [c9Scores, List.cons.injEq, and_true]
  refine ⟨?_, ?_, ?_, ?_, ?_⟩ <;> (rw [Rat.mk'_eq_divInt, Rat.divInt_eq_div]; norm_num)

/-- C1: when the target entity id lies inside its own filter list, the filter
step still preserves the target's score (it is saved before the zeroing and
written back afterwards), and the computed rank equals the rank obtained by
filtering with the target removed from the filter list. -/
theorem target_in_own_filter_preserved (s : List ℚ) (t : Nat) (f : List Nat)
    (h : t ∈ f) :
    (filterStep s t f)[t]? = s[t]? ∧
    rankOf (filterStep s t f) t =
      rankOf (filterStep s t (f.filter fun j => j != t)) t :=
  ⟨filterStep_preserves_target s t f, by rw [← filterStep_erase_target]⟩

theorem target_in_own_filter_preserved_witness :
    (filterStep c2Scores 1 [1, 2])[1]? = c2Scores[1]? ∧
    rankOf (filterStep c2Scores 1 [1, 2]) 1 =
      rankOf (filterStep c2Scores 1 ([1, 2].filter fun j => j != 1)) 1 :=
  target_in_own_filter_preserved c2Scores 1 [1, 2] (by decide)

/-- C2: the filter is applied as a raw index list, not a set: every index in
the filter list other than the target — including id 0 coming from
zero-padding, and including duplicates — has its score set to 0 before
sorting; and zeroing entity 0 via a zero-padded filter can change entity 0's
rank relative to a truly empty filter. -/
theorem filter_applied_as_raw_index_list :
    (∀ (s : List ℚ) (t : Nat) (f : List Nat) (j : Nat), j ∈ f → j ≠ t →
      (filterStep s t f)[j]? = (s[j]?).map fun _ => (0 : ℚ)) ∧
    rankOf (filterStep c2Scores 2 [0]) 0 ≠ rankOf (filterStep c2Scores 2 []) 0 := by
  constructor
  · intro s t f j hj hjt
    rw [filterStep_getElem?]
    simp [hjt, hj]
  · decide

theorem filter_applied_as_raw_index_list_witness :
    (filterStep c2Scores 2 [0])[0]? = ((c2Scores[0]?).map fun _ => (0 : ℚ)) ∧
    rankOf (filterStep c2Scores 2 [0]) 0 ≠ rankOf (filterStep c2Scores 2 []) 0 :=
  ⟨filter_applied_as_raw_index_list.1 c2Scores 2 [0] 0 (by decide) (by decide),
   filter_applied_as_raw_index_list.2⟩

/-- C5: for every score row, filter list and target id inside the candidate
range, the filtered 1-based rank is at least 1 and at most the number of
entities. -/
theorem filtered_rank_bounds (s : List ℚ) (t : Nat) (f : List Nat)
    (h : t < s.length) :
    1 ≤ rankOf (filterStep s t f) t ∧ rankOf (filterStep s t f) t ≤ s.length := by
  constructor
  · rw [rankOf]
    exact Nat.succ_le_succ (Nat.zero_le _)
  · rw [rankOf]
    have h2 : rank0Of (filterStep s t f) t < (filterStep s t f).length :=
      rank0Of_lt _ t (by rw [filterStep_length]; exact h)
    rw [filterStep_length] at h2
    exact h2

theorem filtered_rank_bounds_witness :
    1 ≤ rankOf (filterStep c2Scores 1 [0]) 1 ∧
    rankOf (filterStep c2Scores 1 [0]) 1 ≤ c2Scores.length :=
  filtered_rank_bounds c2Scores 1 [0] (by decide)

/-- C8: the filter step (zero the filter indices, then restore the saved
target score) is idempotent: applying it twice with the same target and
filter list yields the same score row, and hence the same rank, as applying
it once. -/
theorem filter_step_idempotent (s : List ℚ) (t : Nat) (f : List Nat) :
    filterStep (filterStep s t f) t f = filterStep s t f ∧
    rankOf (filterStep (filterStep s t f) t f) t = rankOf (filterStep s t f) t := by
  have heq : filterStep (filterStep s t f) t f = filterStep s t f := by
    apply List.ext_getElem?
    intro k
    rw [filterStep_getElem? (filterStep s t f) t f k]
    by_cases hkt : k = t
    · subst hkt
      simp [filterStep_preserves_target]
    · by_cases hkf : k ∈ f
      · simp only [if_neg hkt, if_pos hkf]
        rw [filterStep_getElem? s t f k]
        simp only [if_neg hkt, if_pos hkf]
        cases s[k]? <;> rfl
      · simp only [if_neg hkt, if_neg hkf]
  exact ⟨heq, by rw [heq]⟩

/-- C9: concrete scenarios on `num_entities = 5`,
`scores = [0.1, 0.9, 0.3, 0.05, 0.2]`: with target 1 and an empty filter the
rank is 1, hits@1 is 1.0 and the reciprocal rank is 1.0; with target 4 and
filter list `[1]` the rank of entity 4 is 2, hits@1 is 0.0 and hits@2 is
1.0. -/
theorem concrete_scenarios_hold :
    rankOf (filterStep c9Scores 1 []) 1 = 1 ∧
    hitInd (rank0Of (filterStep c9Scores 1 []) 1) 0 = 1 ∧
    1 / ((rankOf (filterStep c9Scores 1 []) 1 : ℚ)) = 1 ∧
    rankOf (filterStep c9Scores 4 [1]) 4 = 2 ∧
    hitInd (rank0Of (filterStep c9Scores 4 [1]) 4) 0 = 0 ∧
    hitInd (rank0Of (filterStep c9Scores 4 [1]) 4) 1 = 1 := by
  have h1 : rankOf (filterStep c9Scores 1 []) 1 = 1 := by
    rw [c9Scores_eq_mk]; decide
  refine ⟨h1, ?_, ?_, ?_, ?_, ?_⟩
  · rw [c9Scores_eq_mk]; decide
  · rw [h1]; norm_num
  · rw [c9Scores_eq_mk]; decide
  · rw [c9Scores_eq_mk]; decide
  · rw [c9Scores_eq_mk]; decide

/-- C3: for a non-empty evaluation pass the returned value is the arithmetic
mean of `1/rank` over the combined rank list, and that list holds exactly one
left-direction rank and one right-direction rank per example, in example
order. -/
theorem return_value_is_combined_mrr (exs : List EvalExample) (h : exs ≠ []) :
    rankingAndHitsReturn exs =
      (((runEval exs).ranks).map fun (r : Nat) => 1 / (r : ℚ)).sum /
        (((runEval exs).ranks).length : ℚ) ∧
    (runEval exs).ranks =
      exs.flatMap (fun ex => [rank0Left ex + 1, rank0Right ex + 1]) ∧
    (runEval exs).ranksLeft = exs.map (fun ex => rank0Left ex + 1) ∧
    (runEval exs).ranksRight = exs.map (fun ex => rank0Right ex + 1) ∧
    ((runEval exs).ranks).length = 2 * exs.length := by
  refine ⟨?_, runEval_ranks exs, runEval_ranksLeft exs, runEval_ranksRight exs, ?_⟩
  · rw [rankingAndHitsReturn, mrrOf, meanQ, List.length_map]
  · rw [runEval_ranks exs]
    exact length_bind_pair _ _ exs

theorem return_value_is_combined_mrr_witness :
    rankingAndHitsReturn [demoExample] =
      (((runEval [demoExample]).ranks).map fun (r : Nat) => 1 / (r : ℚ)).sum /
        (((runEval [demoExample]).ranks).length : ℚ) ∧
    (runEval [demoExample]).ranks =
      [demoExample].flatMap (fun ex => [rank0Left ex + 1, rank0Right ex + 1]) ∧
    (runEval [demoExample]).ranksLeft =
      [demoExample].map (fun ex => rank0Left ex + 1) ∧
    (runEval [demoExample]).ranksRight =
      [demoExample].map (fun ex => rank0Right ex + 1) ∧
    ((runEval [demoExample]).ranks).length = 2 * [demoExample].length :=
  return_value_is_combined_mrr [demoExample] (by simp)

/-- C6: for a fixed evaluation pass the aggregate hits@k rates are
monotonically non-decreasing in k, in the combined hit lists and in each
direction-specific hit list, because each level-k entry is the indicator
that the 0-based rank is at most k. -/
theorem hits_rate_monotone (exs : List EvalExample) (k : Nat) (hk : k < 9) :
    hitsAt exs k ≤ hitsAt exs (k + 1) ∧
    hitsLeftAt exs k ≤ hitsLeftAt exs (k + 1) ∧
    hitsRightAt exs k ≤ hitsRightAt exs (k + 1) := by
  have hk10 : k < 10 := Nat.lt_succ_of_lt hk
  have hk110 : k + 1 < 10 := Nat.succ_lt_succ hk
  refine ⟨?_, ?_, ?_⟩
  · rw [hitsAt, hitsAt, runEval_hits exs k hk10, runEval_hits exs (k + 1) hk110,
      meanQ_bind_pair, meanQ_bind_pair]
    have hL := meanQ_map_le_meanQ_map (fun ex => hitInd (rank0Left ex) k)
      (fun ex => hitInd (rank0Left ex) (k + 1)) exs (fun ex _ => hitInd_mono _ k)
    have hR := meanQ_map_le_meanQ_map (fun ex => hitInd (rank0Right ex) k)
      (fun ex => hitInd (rank0Right ex) (k + 1)) exs (fun ex _ => hitInd_mono _ k)
    linarith
  · rw [hitsLeftAt, hitsLeftAt, runEval_hitsLeft exs k hk10,
      runEval_hitsLeft exs (k + 1) hk110]
    exact meanQ_map_le_meanQ_map _ _ exs (fun ex _ => hitInd_mono _ k)
  · rw [hitsRightAt, hitsRightAt, runEval_hitsRight exs k hk10,
      runEval_hitsRight exs (k + 1) hk110]
    exact meanQ_map_le_meanQ_map _ _ exs (fun ex _ => hitInd_mono _ k)

theorem hits_rate_monotone_witness :
    hitsAt [demoExample] 0 ≤ hitsAt [demoExample] 1 ∧
    hitsLeftAt [demoExample] 0 ≤ hitsLeftAt [demoExample] 1 ∧
    hitsRightAt [demoExample] 0 ≤ hitsRightAt [demoExample] 1 :=
  hits_rate_monotone [demoExample] 0 (by decide)

theorem list_sum_eq_length_of_all_one :
    ∀ (l : List ℚ), (∀ x ∈ l, x = 1) → l.sum = l.length := by
  intro l
  induction l with
  | nil => intro _; simp
  | cons a as ih =>
    intro hall
    have ha : a = 1 := hall a (List.mem_cons_self a as)
    have hs : as.sum = as.length := ih fun x hx => hall x (List.mem_cons_of_mem a hx)
    simp only [List.sum_cons, List.length_cons, ha, hs]
    push_cast
    ring

/-- C7: for a non-empty rank list whose entries are all at least 1, the mean
reciprocal rank lies in (0, 1], and it equals 1 exactly when every rank in
the list is 1. -/
theorem mrr_unit_interval (ranks : List Nat) (hne : ranks ≠ [])
    (hpos : ∀ r ∈ ranks, 1 ≤ r) :
    (0 < mrrOf ranks ∧ mrrOf ranks ≤ 1) ∧
    (mrrOf ranks = 1 ↔ ∀ r ∈ ranks, r = 1) := by
  set l := ranks.map fun (r : Nat) => 1 / (r : ℚ) with hl
  have hlen : l.length = ranks.length := List.length_map _ _
  have hmem : ∀ x ∈ l, ∃ r ∈ ranks, x = 1 / (r : ℚ) := by
    intro x hx
    obtain ⟨r, hr, hrx⟩ := List.mem_map.mp hx
    exact ⟨r, hr, hrx.symm⟩
  have hcast : ∀ r ∈ ranks, (1 : ℚ) ≤ (r : ℚ) := by
    intro r hr
    exact_mod_cast hpos r hr
  have hbound : ∀ x ∈ l, x ≤ 1 := by
    intro x hx
    obtain ⟨r, hr, rfl⟩ := hmem x hx
    rw [div_le_one (by linarith [hcast r hr])]
    exact hcast r hr
  have hposl : ∀ x ∈ l, 0 < x := by
    intro x hx
    obtain ⟨r, hr, rfl⟩ := hmem x hx
    exact div_pos one_pos (by linarith [hcast r hr])
  have hlne : l ≠ [] := by
    simpa [hl] using hne
  have hn : (0 : ℚ) < (ranks.length : ℚ) := by
    exact_mod_cast List.length_pos.mpr hne
  have hsumpos : 0 < l.sum := List.sum_pos l hposl hlne
  have hsumle : l.sum ≤ (ranks.length : ℚ) := by
    have := list_sum_le_length l hbound
    rwa [hlen] at this
  have hmrr : mrrOf ranks = l.sum / (ranks.length : ℚ) := by
    rw [mrrOf, meanQ, ← hl, hlen]
  refine ⟨⟨?_, ?_⟩, ?_⟩
  · rw [hmrr]
    exact div_pos hsumpos hn
  · rw [hmrr]
    exact (div_le_one hn).mpr hsumle
  · rw [hmrr, div_eq_one_iff_eq hn.ne']
    constructor
    · intro hsum r hr
      have hall := list_all_one_of_sum_eq_length l hbound (by rw [hlen]; exact hsum)
      have hx : (1 : ℚ) / (r : ℚ) ∈ l := List.mem_map_of_mem _ hr
      have h1 : (1 : ℚ) / (r : ℚ) = 1 := hall _ hx
      have hr0 : (r : ℚ) ≠ 0 := by linarith [hcast r hr]
      rw [div_eq_one_iff_eq hr0] at h1
      exact_mod_cast h1.symm
    · intro hall
      have : ∀ x ∈ l, x = 1 := by
        intro x hx
        obtain ⟨r, hr, rfl⟩ := hmem x hx
        rw [hall r hr]
        norm_num
      rw [list_sum_eq_length_of_all_one l this, hlen]

theorem mrr_unit_interval_witness :
    (0 < mrrOf [1, 2] ∧ mrrOf [1, 2] ≤ 1) ∧
    (mrrOf [1, 2] = 1 ↔ ∀ r ∈ [1, 2], r = 1) :=
  mrr_unit_interval [1, 2] (by decide) (by decide)

/-- C10: for a non-empty evaluation pass every combined aggregate equals the
unweighted average of its two direction-specific aggregates, because every
example contributes exactly one left entry and one right entry to each
combined list. -/
theorem combined_aggregates_are_averages (exs : List EvalExample) (h : exs ≠ []) :
    meanRank exs = (meanRankLeft exs + meanRankRight exs) / 2 ∧
    mrr exs = (mrrLeft exs + mrrRight exs) / 2 ∧
    ∀ k, k < 10 → hitsAt exs k = (hitsLeftAt exs k + hitsRightAt exs k) / 2 := by
  refine ⟨?_, ?_, ?_⟩
  · rw [meanRank, meanRankLeft, meanRankRight, meanRankOf, meanRankOf, meanRankOf,
      runEval_ranks, runEval_ranksLeft, runEval_ranksRight, map_bind_pair,
      meanQ_bind_pair, List.map_map, List.map_map]
    simp [Function.comp_def, Nat.cast_add, Nat.cast_one]
  · rw [mrr, mrrLeft, mrrRight, mrrOf, mrrOf, mrrOf,
      runEval_ranks, runEval_ranksLeft, runEval_ranksRight, map_bind_pair,
      meanQ_bind_pair, List.map_map, List.map_map]
    simp [Function.comp_def, Nat.cast_add, Nat.cast_one]
  · intro k hk
    rw [hitsAt, hitsLeftAt, hitsRightAt, runEval_hits exs k hk,
      runEval_hitsLeft exs k hk, runEval_hitsRight exs k hk, meanQ_bind_pair]

theorem combined_aggregates_are_averages_witness :
    meanRank [demoExample] = (meanRankLeft [demoExample] + meanRankRight [demoExample]) / 2 ∧
    mrr [demoExample] = (mrrLeft [demoExample] + mrrRight [demoExample]) / 2 ∧
    hitsAt [demoExample] 0 = (hitsLeftAt [demoExample] 0 + hitsRightAt [demoExample] 0) / 2 :=
  ⟨(combined_aggregates_are_averages [demoExample] (by simp)).1,
   (combined_aggregates_are_averages [demoExample] (by simp)).2.1,
   (combined_aggregates_are_averages [demoExample] (by simp)).2.2 0 (by decide)⟩

end KGCEval

namespace ModelDispatch

/-- C4 counterexample: for the unrecognized model string "foo" the
kg-completion script does raise before training, but the message is the fixed
text "Unknown model type!", which does not name the supplied option. -/
theorem kgc_unknown_model_message_lacks_option :
    kgcRun (some "foo") 5 = Except.error "Unknown model type!" ∧
    mentionsOption "foo" "Unknown model type!" = false := by
  constructor
  · rfl
  · decide

/-- C4 (amended): an unrecognized model-type or graph-type string makes model
construction raise before any epoch is trained or evaluated in both scripts,
but neither fatal message names the supplied option: the kg-completion script
raises the fixed `Exception("Unknown model type!")`, and the
text-classification script raises the fixed
`NameError: name 'config' is not defined` from the unknown-graph_type branch
of `_build_dataloader` (line 158), whose intended formatted RuntimeError
message references the undefined name `config` and is never produced. -/
theorem unknown_option_fails_before_training (s g : String) (epochs : Nat)
    (hs : s ∉ ["conve", "distmult", "complex", "ggnn_distmult", "gcn_distmult",
      "gcn_complex"])
    (hg : g ∉ ["dependency", "constituency", "node_emb", "node_emb_refined"]) :
    kgcRun (some s) epochs = Except.error "Unknown model type!" ∧
    tcRun g epochs = Except.error "NameError: name 'config' is not defined" := by
  simp only [List.mem_cons, List.not_mem_nil, or_false, not_or] at hs hg
  obtain ⟨h1, h2, h3, h4, h5, h6⟩ := hs
  obtain ⟨g1, g2, g3, g4⟩ := hg
  constructor
  · simp [kgcRun, kgcSelectModel, h1, h2, h3, h4, h5, h6]
  · simp [tcRun, tcBuildDataloader, g1, g2, g3, g4]

theorem unknown_option_fails_before_training_witness :
    kgcRun (some "lstm") 3 = Except.error "Unknown model type!" ∧
    tcRun "lstm" 3 = Except.error "NameError: name 'config' is not defined" :=
  unknown_option_fails_before_training "lstm" "lstm" 3 (by decide) (by decide)

end ModelDispatch
